import Mathlib

/-!
Verification of the views registry in `src/vs/workbench/common/views.ts`.

The registry stores view descriptors keyed by `ViewLocation`, stores tree-view
data-provider bindings keyed by view id, and reports change events.  The
TypeScript source is embedded shallowly: the two internal `Map`s become
association lists (a JS `Map.set` on an existing key replaces its value in
place, on a fresh key appends an entry, which `mapSet` mirrors), mutation
becomes explicit state passing, a thrown error becomes an `Option` error
component, and each `Emitter.fire` call becomes an event appended to the list
of events produced by the call.
-/

namespace Views

/-- The `ViewLocation` class: a value object carrying a stable string id.
Per the data model, equality is by id. -/
structure ViewLocation where
  id : String
deriving DecidableEq

/-- The static singleton `ViewLocation.Explorer`. -/
def ViewLocation.Explorer : ViewLocation := ⟨"explorer"⟩

/-- The static singleton `ViewLocation.Debug`. -/
def ViewLocation.Debug : ViewLocation := ⟨"debug"⟩

/-- The static singleton `ViewLocation.Extensions`. -/
def ViewLocation.Extensions : ViewLocation := ⟨"extensions"⟩

/-- `ViewLocation.getContributedViewLocation`: a switch on the given string
against `ViewLocation.Explorer.id` and `ViewLocation.Debug.id`; every other
string (the `Extensions` id included) falls through to `void 0`, embedded as
`none`. -/
def ViewLocation.getContributedViewLocation (value : String) : Option ViewLocation :=
  if value = ViewLocation.Explorer.id then some ViewLocation.Explorer
  else if value = ViewLocation.Debug.id then some ViewLocation.Debug
  else none

/-- The `IViewDescriptor` record.  `ctor` is the opaque construction token and
`whenExpr` the optional context-key expression; both are host-specific and
irrelevant to the registry logic, so they are embedded as opaque numeric
tokens. -/
structure IViewDescriptor where
  id : String
  name : String
  location : ViewLocation
  ctor : Nat
  whenExpr : Option Nat
  order : Option Int
  weight : Option Nat
  collapsed : Option Bool
  canToggleVisibility : Option Bool
deriving DecidableEq

/-- An `ITreeViewDataProvider` instance, identified opaquely: the registry
never looks inside a provider, it only stores and returns the reference. -/
structure ITreeViewDataProvider where
  token : Nat
deriving DecidableEq

/-- The error thrown by `registerViews` on a duplicate id: the message
produced by the source names the offending view id and the location id. -/
structure DuplicateViewError where
  viewId : String
  locationId : String
deriving DecidableEq

/-- One event fired by the registry: the three emitters
`_onViewsRegistered`, `_onViewsDeregistered` and
`_onTreeViewDataProviderRegistered` with their payloads. -/
inductive RegistryEvent where
  | viewsRegistered (views : List IViewDescriptor)
  | viewsDeregistered (views : List IViewDescriptor)
  | treeViewDataProviderRegistered (id : String)
deriving DecidableEq

/-- Lookup in an association list embedding a JS `Map`: first (and only)
entry with the given key. -/
def mapGet {α β : Type} [DecidableEq α] : List (α × β) → α → Option β
  | [], _ => none
  | (k, v) :: rest, k₀ => if k = k₀ then some v else mapGet rest k₀

/-- `Map.set`: replace the value of an existing key in place, or append a new
entry at the end. -/
def mapSet {α β : Type} [DecidableEq α] : List (α × β) → α → β → List (α × β)
  | [], k₀, v₀ => [(k₀, v₀)]
  | (k, v) :: rest, k₀, v₀ =>
    if k = k₀ then (k₀, v₀) :: rest else (k, v) :: mapSet rest k₀ v₀

/-- The mutable state of the `ViewsRegistry` singleton: `_views` maps a
`ViewLocation` to its ordered descriptor sequence, `_treeViewDataPoviders`
(spelling as in the source) maps a view id to its bound provider. -/
structure ViewsRegistryState where
  views : List (ViewLocation × List IViewDescriptor)
  treeViewDataPoviders : List (String × ITreeViewDataProvider)
deriving DecidableEq

/-- The registry as initially constructed: both maps empty. -/
def initialRegistry : ViewsRegistryState := ⟨[], []⟩

/-- `getViews(loc)`: `this._views.get(loc) || []`. -/
def getViews (s : ViewsRegistryState) (loc : ViewLocation) : List IViewDescriptor :=
  (mapGet s.views loc).getD []

/-- `getTreeViewDataProvider(id)`: `this._treeViewDataPoviders.get(id)`,
which is `undefined` (here `none`) when the id is unbound. -/
def getTreeViewDataProvider (s : ViewsRegistryState) (id : String) :
    Option ITreeViewDataProvider :=
  mapGet s.treeViewDataPoviders id

/-- One successful iteration of the loop in `registerViews`: fetch the
location's sequence (creating it empty when absent) and push the descriptor.
The source's `views.push(viewDescriptor)` mutates the array stored in the
map; with the fresh-location case, both paths amount to storing the old
sequence extended by the descriptor. -/
def insertView (s : ViewsRegistryState) (d : IViewDescriptor) : ViewsRegistryState :=
  ⟨mapSet s.views d.location (getViews s d.location ++ [d]), s.treeViewDataPoviders⟩

/-- The duplicate test in `registerViews`:
`views.some(v => v.id === viewDescriptor.id)` against the current sequence of
the descriptor's location. -/
def hasDup (s : ViewsRegistryState) (d : IViewDescriptor) : Bool :=
  (getViews s d.location).any (fun v => decide (v.id = d.id))

/-- The `for` loop of `registerViews`: descriptor by descriptor, stop with a
`DuplicateViewError` naming the id and the location id as soon as the
duplicate test fires, otherwise insert and continue. -/
def registerViewsGo :
    ViewsRegistryState → List IViewDescriptor →
      ViewsRegistryState × Option DuplicateViewError
  | s, [] => (s, none)
  | s, d :: rest =>
    if hasDup s d then (s, some ⟨d.id, d.location.id⟩)
    else registerViewsGo (insertView s d) rest

/-- `registerViews(viewDescriptors)`: guarded by
`if (viewDescriptors.length)`, runs the loop, and fires
`_onViewsRegistered` with the whole input batch only when the loop finished
without throwing.  A thrown error propagates to the caller, so no event is
fired on the error path. -/
def registerViews (s : ViewsRegistryState) (viewDescriptors : List IViewDescriptor) :
    ViewsRegistryState × List RegistryEvent × Option DuplicateViewError :=
  if viewDescriptors.isEmpty then (s, [], none)
  else
    match registerViewsGo s viewDescriptors with
    | (s₁, some e) => (s₁, [], some e)
    | (s₁, none) => (s₁, [RegistryEvent.viewsRegistered viewDescriptors], none)

/-- `deregisterViews(ids, location)`: return silently when the location has
no entry in `_views`; otherwise compute the matched subset
(`ids.indexOf(view.id) !== -1`), replace the stored sequence by the
non-matching remainder when the matched subset is non-empty, and fire
`_onViewsDeregistered` with the matched subset unconditionally. -/
def deregisterViews (s : ViewsRegistryState) (ids : List String)
    (location : ViewLocation) : ViewsRegistryState × List RegistryEvent :=
  match mapGet s.views location with
  | none => (s, [])
  | some views =>
    let viewsToDeregister := views.filter (fun v => decide (v.id ∈ ids))
    let newViews :=
      if viewsToDeregister.isEmpty then s.views
      else mapSet s.views location (views.filter (fun v => decide (v.id ∉ ids)))
    (⟨newViews, s.treeViewDataPoviders⟩,
     [RegistryEvent.viewsDeregistered viewsToDeregister])

/-- The private helper `isDataProviderRegistered(id)`: folds over the values
of `_views` asking whether any registered descriptor carries the id.  (Note
it inspects `_views`, not the provider map.) -/
def isDataProviderRegistered (s : ViewsRegistryState) (id : String) : Bool :=
  s.views.any (fun p => p.2.any (fun v => decide (v.id = id)))

/-- `registerTreeViewDataProvider(id, factory)`: the guard
`if (!this.isDataProviderRegistered(id))` has an empty body (its branch is a
`TODO: throw error` comment), so the call unconditionally sets the binding
and fires `_onTreeViewDataProviderRegistered` with the id. -/
def registerTreeViewDataProvider (s : ViewsRegistryState) (id : String)
    (factory : ITreeViewDataProvider) : ViewsRegistryState × List RegistryEvent :=
  (⟨s.views, mapSet s.treeViewDataPoviders id factory⟩,
   [RegistryEvent.treeViewDataProviderRegistered id])

/-- `deregisterTreeViewDataProviders()`: `this._treeViewDataPoviders.clear()`,
firing nothing. -/
def deregisterTreeViewDataProviders (s : ViewsRegistryState) :
    ViewsRegistryState × List RegistryEvent :=
  (⟨s.views, []⟩, [])

/-- One mutating call of the registry's public interface. -/
inductive RegistryOp where
  | regViews (views : List IViewDescriptor)
  | deregViews (ids : List String) (location : ViewLocation)
  | regTreeViewDataProvider (id : String) (factory : ITreeViewDataProvider)
  | deregTreeViewDataProviders

/-- The state after one call, discarding events and a thrown error (a throw
leaves the partially applied state behind, exactly as the source's exception
does). -/
def applyOp (s : ViewsRegistryState) : RegistryOp → ViewsRegistryState
  | .regViews ds => (registerViews s ds).1
  | .deregViews ids loc => (deregisterViews s ids loc).1
  | .regTreeViewDataProvider id f => (registerTreeViewDataProvider s id f).1
  | .deregTreeViewDataProviders => (deregisterTreeViewDataProviders s).1

/-- The state reached from the freshly constructed registry by a sequence of
calls. -/
def runOps (ops : List RegistryOp) : ViewsRegistryState :=
  ops.foldl applyOp initialRegistry

/-- Whether the `registerViews` loop, run on batch `ds` from state `s`, finds
a duplicate at position `j`: the descriptor at `j` tested against the state
in which the first `j` descriptors have been inserted. -/
def dupAt (s : ViewsRegistryState) (ds : List IViewDescriptor) (j : Nat) : Bool :=
  match ds[j]? with
  | none => false
  | some d => hasDup ((ds.take j).foldl insertView s) d

/-- Invariant: within every single location, registered descriptor ids are
pairwise distinct. -/
def RegistryViewsInvariant (s : ViewsRegistryState) : Prop :=
  ∀ loc : ViewLocation, ((getViews s loc).map (fun v => v.id)).Nodup

/-! ### Association-list lemmas -/

theorem mapGet_mapSet_self {α β : Type} [DecidableEq α] (m : List (α × β)) (k : α) (v : β) :
    mapGet (mapSet m k v) k = some v := by
  induction m with
  | nil => simp [mapGet, mapSet]
  | cons p rest ih =>
    obtain ⟨k₁, v₁⟩ := p
    by_cases h : k₁ = k
    · subst h; simp [mapGet, mapSet]
    · simp [mapGet, mapSet, h, ih]

theorem mapGet_mapSet_ne {α β : Type} [DecidableEq α] (m : List (α × β)) (k k' : α) (v : β)
    (h : k ≠ k') : mapGet (mapSet m k v) k' = mapGet m k' := by
  induction m with
  | nil => simp [mapGet, mapSet, h]
  | cons p rest ih =>
    obtain ⟨k₁, v₁⟩ := p
    by_cases h₁ : k₁ = k
    · subst h₁; simp [mapGet, mapSet, h]
    · by_cases h₂ : k₁ = k'
      · subst h₂; simp [mapGet, mapSet, h₁]
      · simp [mapGet, mapSet, h₁, h₂, ih]

/-! ### Basic registry lemmas -/

theorem getViews_insertView (s : ViewsRegistryState) (d : IViewDescriptor)
    (loc : ViewLocation) :
    getViews (insertView s d) loc =
      if d.location = loc then getViews s loc ++ [d] else getViews s loc := by
  by_cases h : d.location = loc
  · subst h
    simp [getViews, insertView, mapGet_mapSet_self]
  · simp [getViews, insertView, mapGet_mapSet_ne _ _ _ _ h, h]

theorem treeViewDataPoviders_insertView (s : ViewsRegistryState) (d : IViewDescriptor) :
    (insertView s d).treeViewDataPoviders = s.treeViewDataPoviders := rfl

theorem getViews_foldl_insertView (ds : List IViewDescriptor) :
    ∀ s : ViewsRegistryState, ∀ loc : ViewLocation,
      getViews (ds.foldl insertView s) loc =
        getViews s loc ++ ds.filter (fun d => decide (d.location = loc)) := by
  induction ds with
  | nil => intro s loc; simp
  | cons d rest ih =>
    intro s loc
    rw [List.foldl_cons, ih, getViews_insertView]
    by_cases h : d.location = loc
    · simp [h, List.filter_cons]
    · simp [h, List.filter_cons]

theorem dupAt_zero (s : ViewsRegistryState) (d : IViewDescriptor)
    (rest : List IViewDescriptor) : dupAt s (d :: rest) 0 = hasDup s d := by
  simp [dupAt]

theorem dupAt_succ (s : ViewsRegistryState) (d : IViewDescriptor)
    (rest : List IViewDescriptor) (i : Nat) :
    dupAt s (d :: rest) (i + 1) = dupAt (insertView s d) rest i := by
  simp [dupAt, List.take_succ_cons]

/-- When the loop meets no duplicate, it inserts the whole batch and reports
no error. -/
theorem registerViewsGo_clean (ds : List IViewDescriptor) :
    ∀ s : ViewsRegistryState, (∀ i, i < ds.length → dupAt s ds i = false) →
      registerViewsGo s ds = (ds.foldl insertView s, none) := by
  induction ds with
  | nil => intro s _; rfl
  | cons d rest ih =>
    intro s h
    have h₀ : hasDup s d = false := by rw [← dupAt_zero s d rest]; exact h 0 (Nat.succ_pos _)
    rw [List.foldl_cons]
    show (if hasDup s d then _ else registerViewsGo (insertView s d) rest) = _
    rw [h₀]
    simp only [Bool.false_eq_true, if_false]
    exact ih (insertView s d) fun i hi => by
      rw [← dupAt_succ]; exact h (i + 1) (Nat.succ_lt_succ hi)

/-- When position `j` is the first one at which the loop meets a duplicate,
the loop stops there: the first `j` descriptors are inserted, the rest are
not, and the error names the offending descriptor's id and location id. -/
theorem registerViewsGo_stop (ds : List IViewDescriptor) :
    ∀ (s : ViewsRegistryState) (j : Nat) (d : IViewDescriptor), ds[j]? = some d →
      (∀ i, i < j → dupAt s ds i = false) → dupAt s ds j = true →
      registerViewsGo s ds =
        ((ds.take j).foldl insertView s, some ⟨d.id, d.location.id⟩) := by
  induction ds with
  | nil => intro s j d hj _ _; simp at hj
  | cons d₀ rest ih =>
    intro s j d hj hfirst hdup
    cases j with
    | zero =>
      simp only [List.getElem?_cons_zero, Option.some.injEq] at hj
      rw [dupAt_zero] at hdup
      show (if hasDup s d₀ then _ else _) = _
      rw [hdup]
      simp [hj]
    | succ j' =>
      have h₀ : hasDup s d₀ = false := by
        rw [← dupAt_zero s d₀ rest]; exact hfirst 0 (Nat.succ_pos _)
      rw [List.getElem?_cons_succ] at hj
      rw [dupAt_succ] at hdup
      show (if hasDup s d₀ then _ else registerViewsGo (insertView s d₀) rest) = _
      rw [h₀]
      simp only [Bool.false_eq_true, if_false, List.take_succ_cons, List.foldl_cons]
      exact ih (insertView s d₀) j' d hj
        (fun i hi => by rw [← dupAt_succ]; exact hfirst (i + 1) (Nat.succ_lt_succ hi))
        hdup

theorem hasDup_insertView_false (s : ViewsRegistryState) (d e : IViewDescriptor)
    (he : hasDup s e = false) (hne : d.id = e.id → d.location ≠ e.location) :
    hasDup (insertView s d) e = false := by
  unfold hasDup at *
  rw [getViews_insertView]
  by_cases h : d.location = e.location
  · rw [if_pos h, List.any_append]
    simp only [he, Bool.false_or, List.any_cons, List.any_nil, Bool.or_false]
    simp only [decide_eq_false_iff_not]
    intro hid
    exact hne hid h
  · rw [if_neg h]
    exact he

/-- A batch with pairwise-distinct (id, location) pairs, none colliding with
the current state, never triggers the duplicate test. -/
theorem dupAt_false_of_fresh (ds : List IViewDescriptor) :
    ∀ s : ViewsRegistryState,
      ds.Pairwise (fun a b => a.id = b.id → a.location ≠ b.location) →
      (∀ d ∈ ds, hasDup s d = false) →
      ∀ i, i < ds.length → dupAt s ds i = false := by
  induction ds with
  | nil => intro s _ _ i hi; simp at hi
  | cons d rest ih =>
    intro s hpair hnew i hi
    cases hpair with
    | cons hd htl =>
      cases i with
      | zero =>
        rw [dupAt_zero]
        exact hnew d (List.mem_cons_self _ _)
      | succ i' =>
        rw [dupAt_succ]
        refine ih (insertView s d) htl ?_ i' (Nat.lt_of_succ_lt_succ hi)
        intro e he
        exact hasDup_insertView_false s d e (hnew e (List.mem_cons_of_mem _ he)) (hd e he)

/-! ### Concrete data used by the witnesses and counterexamples -/

/-- A concrete descriptor with id `a` in the explorer location. -/
def descA : IViewDescriptor :=
  ⟨"a", "View A", ViewLocation.Explorer, 0, none, none, none, none, none⟩

/-- A concrete descriptor with id `b` in the explorer location. -/
def descB : IViewDescriptor :=
  ⟨"b", "View B", ViewLocation.Explorer, 0, none, none, none, none, none⟩

/-- A second concrete descriptor with id `a` in the explorer location,
distinct from `descA` in every other field. -/
def descA2 : IViewDescriptor :=
  ⟨"a", "View A again", ViewLocation.Explorer, 1, none, none, none, none, none⟩

/-- A concrete descriptor with id `d` in the debug location. -/
def descDbg : IViewDescriptor :=
  ⟨"d", "View D", ViewLocation.Debug, 0, none, none, none, none, none⟩

/-- State holding exactly `descA` in the explorer location. -/
def stateA : ViewsRegistryState := (registerViews initialRegistry [descA]).1

/-- State whose explorer entry exists but has been emptied again by a
deregistration. -/
def stateAEmptied : ViewsRegistryState :=
  (deregisterViews stateA ["a"] ViewLocation.Explorer).1

/-! ### Claim theorems -/

/-- C1: when the `registerViews` loop first meets a duplicate at position `j`
of the batch (a collision of the descriptor's id with its location's
sequence as it stands at that point of the batch), the call reports a
`DuplicateViewError` naming the offending id and location id, and the final
state holds exactly the descriptors that preceded position `j` appended to
each location's prior sequence: the batch is applied descriptor by
descriptor, not atomically. -/
theorem registerViews_duplicate_partial_batch (s : ViewsRegistryState)
    (ds : List IViewDescriptor) (j : Nat) (d : IViewDescriptor)
    (hj : ds[j]? = some d)
    (hfirst : ∀ i, i < j → dupAt s ds i = false)
    (hdup : dupAt s ds j = true) :
    (registerViews s ds).2.2 = some ⟨d.id, d.location.id⟩ ∧
    ∀ loc : ViewLocation,
      getViews (registerViews s ds).1 loc =
        getViews s loc ++ (ds.take j).filter (fun e => decide (e.location = loc)) := by
  have hgo := registerViewsGo_stop ds s j d hj hfirst hdup
  have hempty : ds.isEmpty = false := by
    cases ds with
    | nil => simp at hj
    | cons _ _ => rfl
  have hreg : registerViews s ds =
      ((ds.take j).foldl insertView s, [], some ⟨d.id, d.location.id⟩) := by
    show (if ds.isEmpty = true then _ else _) = _
    rw [hempty]
    simp only [Bool.false_eq_true, if_false]
    rw [hgo]
  refine ⟨by rw [hreg], fun loc => ?_⟩
  rw [hreg]
  exact getViews_foldl_insertView (ds.take j) s loc

/-- Witness for C1: batch `[descA, descB, descA2]` from the empty registry
first collides at position 2 (id `a` already inserted by the same batch);
the error names id `a` and location `explorer`, and only the first two
descriptors end up registered. -/
theorem registerViews_duplicate_partial_batch_witness :
    (registerViews initialRegistry [descA, descB, descA2]).2.2 =
      some ⟨"a", "explorer"⟩ ∧
    getViews (registerViews initialRegistry [descA, descB, descA2]).1
      ViewLocation.Explorer = [descA, descB] := by
  have h := registerViews_duplicate_partial_batch initialRegistry
    [descA, descB, descA2] 2 descA2 (by decide) (by decide) (by decide)
  refine ⟨h.1, ?_⟩
  rw [h.2 ViewLocation.Explorer]
  decide

/-- C2: a non-empty batch whose (id, location) pairs are pairwise distinct
and collide with nothing already registered is fully applied: the state
becomes the fold of insertions, exactly one `viewsRegistered` event fires
carrying the full batch, no error is reported, and every location's sequence
afterwards is its prior sequence followed by the batch's descriptors for that
location in input order. -/
theorem registerViews_success_spec (s : ViewsRegistryState)
    (ds : List IViewDescriptor) (hne : ds ≠ [])
    (hpair : ds.Pairwise (fun a b => a.id = b.id → a.location ≠ b.location))
    (hnew : ∀ d ∈ ds, hasDup s d = false) :
    registerViews s ds =
      (ds.foldl insertView s, [RegistryEvent.viewsRegistered ds], none) ∧
    ∀ loc : ViewLocation,
      getViews (registerViews s ds).1 loc =
        getViews s loc ++ ds.filter (fun d => decide (d.location = loc)) := by
  have hclean := registerViewsGo_clean ds s (dupAt_false_of_fresh ds s hpair hnew)
  have hempty : ds.isEmpty = false := by
    cases ds with
    | nil => exact absurd rfl hne
    | cons _ _ => rfl
  have hreg : registerViews s ds =
      (ds.foldl insertView s, [RegistryEvent.viewsRegistered ds], none) := by
    show (if ds.isEmpty = true then _ else _) = _
    rw [hempty]
    simp only [Bool.false_eq_true, if_false]
    rw [hclean]
  refine ⟨hreg, fun loc => ?_⟩
  rw [hreg]
  exact getViews_foldl_insertView ds s loc

/-- Witness for C2: registering `[descA, descB, descDbg]` on the empty
registry succeeds, fires the single batch event, and `getViews` returns the
explorer descriptors and the debug descriptor in input order. -/
theorem registerViews_success_spec_witness :
    registerViews initialRegistry [descA, descB, descDbg] =
      ([descA, descB, descDbg].foldl insertView initialRegistry,
       [RegistryEvent.viewsRegistered [descA, descB, descDbg]], none) ∧
    getViews (registerViews initialRegistry [descA, descB, descDbg]).1
      ViewLocation.Explorer = [descA, descB] ∧
    getViews (registerViews initialRegistry [descA, descB, descDbg]).1
      ViewLocation.Debug = [descDbg] := by
  have h := registerViews_success_spec initialRegistry [descA, descB, descDbg]
    (by decide) (by decide) (by decide)
  refine ⟨h.1, ?_, ?_⟩
  · rw [h.2 ViewLocation.Explorer]; decide
  · rw [h.2 ViewLocation.Debug]; decide

/-- C3 counterexample: register `descA` in the explorer location, then
deregister it, so the explorer location has no registered descriptors
(`getViews` returns `[]`); the claim then demands that a further
`deregisterViews` call be a no-op firing no event, yet the code fires a
`viewsDeregistered` event with an empty payload, because the location still
has a (now empty) entry in the internal map. -/
theorem deregisterViews_empty_location_fires_cex :
    getViews stateAEmptied ViewLocation.Explorer = [] ∧
    (deregisterViews stateAEmptied ["b"] ViewLocation.Explorer).2 =
      [RegistryEvent.viewsDeregistered []] := by
  decide

/-- C3 amended: `deregisterViews ids location` is a silent no-op exactly when
the location has no entry in the internal `_views` map (it has never had any
registration); when an entry exists — even one emptied by earlier
deregistrations — the matching descriptors are removed, the survivors keep
their order, and one `viewsDeregistered` event fires carrying the matched
subset, also when that subset is empty. -/
theorem deregisterViews_spec (s : ViewsRegistryState) (ids : List String)
    (location : ViewLocation) :
    (mapGet s.views location = none → deregisterViews s ids location = (s, [])) ∧
    ∀ views, mapGet s.views location = some views →
      (deregisterViews s ids location).2 =
        [RegistryEvent.viewsDeregistered
          (views.filter (fun v => decide (v.id ∈ ids)))] ∧
      getViews (deregisterViews s ids location).1 location =
        views.filter (fun v => decide (v.id ∉ ids)) := by
  constructor
  · intro h
    unfold deregisterViews
    rw [h]
  · intro views h
    unfold deregisterViews
    rw [h]
    simp only
    constructor
    · trivial
    · by_cases hm : (views.filter (fun v => decide (v.id ∈ ids))).isEmpty = true
      · rw [if_pos hm]
        have hall : ∀ v ∈ views, v.id ∉ ids := by
          rw [List.isEmpty_iff, List.filter_eq_nil_iff] at hm
          intro v hv
          have := hm v hv
          simpa using this
        have hfix : views.filter (fun v => decide (v.id ∉ ids)) = views :=
          List.filter_eq_self.mpr fun v hv => by simpa using hall v hv
        rw [hfix]
        show (mapGet s.views location).getD [] = views
        rw [h]
        rfl
      · rw [if_neg hm]
        show (mapGet (mapSet s.views location _) location).getD [] = _
        rw [mapGet_mapSet_self]
        rfl

/-- Witness for C3 amended: on `stateA` (explorer entry `[descA]`), both
branches are exercised — the debug location has no entry, so deregistering
there is a silent no-op, while deregistering id `a` at the explorer location
fires the event carrying `[descA]` and leaves no survivors. -/
theorem deregisterViews_spec_witness :
    deregisterViews stateA ["a"] ViewLocation.Debug = (stateA, []) ∧
    (deregisterViews stateA ["a"] ViewLocation.Explorer).2 =
      [RegistryEvent.viewsDeregistered [descA]] ∧
    getViews (deregisterViews stateA ["a"] ViewLocation.Explorer).1
      ViewLocation.Explorer = [] := by
  refine ⟨(deregisterViews_spec stateA ["a"] ViewLocation.Debug).1 (by decide), ?_⟩
  have h := (deregisterViews_spec stateA ["a"] ViewLocation.Explorer).2
    [descA] (by decide)
  refine ⟨?_, ?_⟩
  · rw [h.1]; decide
  · rw [h.2]; decide

/-- C4 counterexample: `"extensions"` is the id of the canonical singleton
`ViewLocation.Extensions`, yet `getContributedViewLocation` resolves it to
`none` — the switch in the source only covers the explorer and debug ids, so
the claim's fixed set `{explorer, debug, extensions}` is wrong about
`extensions`. -/
theorem getContributedViewLocation_extensions_cex :
    ViewLocation.Extensions.id = "extensions" ∧
    ViewLocation.getContributedViewLocation "extensions" = none := by
  decide

/-- C4 amended: resolving a string returns the canonical `Explorer` singleton
for `"explorer"` and the canonical `Debug` singleton for `"debug"`, and an
absent value for every other string — including `"extensions"`, whose
canonical singleton exists but is not resolvable; the function is pure, so
no side effects occur. -/
theorem getContributedViewLocation_spec (value : String) :
    ViewLocation.getContributedViewLocation value =
      (if value = "explorer" then some ViewLocation.Explorer
       else if value = "debug" then some ViewLocation.Debug
       else none) := rfl

/-- C8: `registerViews` on the empty batch is a silent no-op — the state is
returned unchanged, no event fires and no error is reported. -/
theorem registerViews_empty_noop (s : ViewsRegistryState) :
    registerViews s [] = (s, [], none) := rfl

/-- C9 counterexample: on the empty batch no error is raised and the whole
(empty) batch is trivially inserted — the state is unchanged, which is the
successful insertion of all zero descriptors — yet no `viewsRegistered`
event fires, refuting "the notification fires if and only if the whole batch
was inserted successfully". -/
theorem viewsRegistered_event_iff_cex :
    (registerViews initialRegistry []).2.2 = none ∧
    (registerViews initialRegistry []).1 = initialRegistry ∧
    (registerViews initialRegistry []).2.1 = [] := by
  decide

/-- C9 amended: a `registerViews` call fires the `viewsRegistered` event
exactly when the batch is non-empty and no `DuplicateViewError` was raised,
and then the single event carries the full input batch; in particular no
event ever fires on a call that raises the error. -/
theorem viewsRegistered_event_condition (s : ViewsRegistryState)
    (ds : List IViewDescriptor) :
    (registerViews s ds).2.1 =
      (if ds ≠ [] ∧ (registerViews s ds).2.2 = none
       then [RegistryEvent.viewsRegistered ds] else []) := by
  cases ds with
  | nil => rfl
  | cons d rest =>
    show (match registerViewsGo s (d :: rest) with
      | (s₁, some e) => (s₁, ([] : List RegistryEvent), some e)
      | (s₁, none) =>
        (s₁, [RegistryEvent.viewsRegistered (d :: rest)], none)).2.1 = _
    rcases hgo : registerViewsGo s (d :: rest) with ⟨s₁, e⟩
    cases e with
    | none => simp [registerViews, hgo]
    | some err => simp [registerViews, hgo]

/-! ### Invariant preservation -/

theorem registerViews_fst (s : ViewsRegistryState) (ds : List IViewDescriptor) :
    (registerViews s ds).1 = (registerViewsGo s ds).1 := by
  cases ds with
  | nil => rfl
  | cons d rest =>
    rcases hgo : registerViewsGo s (d :: rest) with ⟨s₁, e⟩
    cases e with
    | none => simp [registerViews, hgo]
    | some err => simp [registerViews, hgo]

theorem registerViewsGo_treeViewDataPoviders (ds : List IViewDescriptor) :
    ∀ s : ViewsRegistryState,
      (registerViewsGo s ds).1.treeViewDataPoviders = s.treeViewDataPoviders := by
  induction ds with
  | nil => intro s; rfl
  | cons d rest ih =>
    intro s
    by_cases hd : hasDup s d
    · simp [registerViewsGo, hd]
    · simp only [registerViewsGo, hd, Bool.false_eq_true, if_false]
      rw [ih (insertView s d)]
      rfl

theorem inv_insertView (s : ViewsRegistryState) (d : IViewDescriptor)
    (hinv : RegistryViewsInvariant s) (hd : hasDup s d = false) :
    RegistryViewsInvariant (insertView s d) := by
  intro loc
  rw [getViews_insertView]
  by_cases h : d.location = loc
  · subst h
    rw [if_pos rfl, List.map_append]
    have hmem : d.id ∉ (getViews s d.location).map (fun v => v.id) := by
      rw [List.mem_map]
      rintro ⟨v, hv, hid⟩
      have hfalse : decide (v.id = d.id) = false := by
        have := List.any_eq_false.mp hd v hv
        simpa using this
      simp [hid] at hfalse
    simp [List.nodup_append, hinv d.location, hmem]
  · rw [if_neg h]
    exact hinv loc

theorem inv_registerViewsGo (ds : List IViewDescriptor) :
    ∀ s : ViewsRegistryState, RegistryViewsInvariant s →
      RegistryViewsInvariant (registerViewsGo s ds).1 := by
  induction ds with
  | nil => intro s h; exact h
  | cons d rest ih =>
    intro s h
    by_cases hd : hasDup s d
    · simpa [registerViewsGo, hd] using h
    · have hd' : hasDup s d = false := by simpa using hd
      simp only [registerViewsGo, hd', Bool.false_eq_true, if_false]
      exact ih (insertView s d) (inv_insertView s d h hd')

theorem inv_deregisterViews (s : ViewsRegistryState) (ids : List String)
    (loc : ViewLocation) (h : RegistryViewsInvariant s) :
    RegistryViewsInvariant (deregisterViews s ids loc).1 := by
  intro loc₂
  unfold deregisterViews
  rcases hv : mapGet s.views loc with _ | views
  · exact h loc₂
  · simp only
    by_cases hm : (views.filter (fun v => decide (v.id ∈ ids))).isEmpty = true
    · rw [if_pos hm]
      exact h loc₂
    · rw [if_neg hm]
      by_cases hloc : loc = loc₂
      · subst hloc
        have hg : getViews
            ⟨mapSet s.views loc (views.filter (fun v => decide (v.id ∉ ids))),
              s.treeViewDataPoviders⟩ loc =
            views.filter (fun v => decide (v.id ∉ ids)) := by
          unfold getViews
          rw [mapGet_mapSet_self]
          rfl
        rw [hg]
        have hsub : List.Sublist
            ((views.filter (fun v => decide (v.id ∉ ids))).map (fun v => v.id))
            (views.map (fun v => v.id)) :=
          (List.filter_sublist views).map _
        have hviews : getViews s loc = views := by
          unfold getViews
          rw [hv]
          rfl
        have hnd := h loc
        rw [hviews] at hnd
        exact List.Nodup.sublist hsub hnd
      · have hg : getViews
            ⟨mapSet s.views loc (views.filter (fun v => decide (v.id ∉ ids))),
              s.treeViewDataPoviders⟩ loc₂ = getViews s loc₂ := by
          unfold getViews
          rw [mapGet_mapSet_ne _ _ _ _ hloc]
        rw [hg]
        exact h loc₂

theorem inv_applyOp (s : ViewsRegistryState) (op : RegistryOp)
    (h : RegistryViewsInvariant s) : RegistryViewsInvariant (applyOp s op) := by
  cases op with
  | regViews ds =>
    show RegistryViewsInvariant (registerViews s ds).1
    rw [registerViews_fst]
    exact inv_registerViewsGo ds s h
  | deregViews ids loc => exact inv_deregisterViews s ids loc h
  | regTreeViewDataProvider id f => exact h
  | deregTreeViewDataProviders => exact h

theorem inv_foldl (ops : List RegistryOp) :
    ∀ s : ViewsRegistryState, RegistryViewsInvariant s →
      RegistryViewsInvariant (ops.foldl applyOp s) := by
  induction ops with
  | nil => intro s h; exact h
  | cons op rest ih =>
    intro s h
    exact ih (applyOp s op) (inv_applyOp s op h)

theorem inv_initialRegistry : RegistryViewsInvariant initialRegistry := by
  intro loc
  show (((mapGet ([] : List (ViewLocation × List IViewDescriptor)) loc).getD []).map _).Nodup
  simp [mapGet]

/-- C5: in every state reachable from the freshly constructed registry by
any sequence of the four mutating calls (a raised error leaving its
partially applied state behind), no two descriptors registered in the same
location share an id; and registering a descriptor whose id is already
present in its location raises the `DuplicateViewError` and leaves the state
untouched instead of overwriting. -/
theorem registry_unique_ids_invariant :
    (∀ ops : List RegistryOp, RegistryViewsInvariant (runOps ops)) ∧
    ∀ (s : ViewsRegistryState) (d : IViewDescriptor), hasDup s d = true →
      registerViews s [d] = (s, [], some ⟨d.id, d.location.id⟩) := by
  constructor
  · intro ops
    exact inv_foldl ops initialRegistry inv_initialRegistry
  · intro s d hd
    simp [registerViews, registerViewsGo, hd]

/-- Witness for C5: the invariant holds in the concrete state reached by a
register-then-deregister sequence, and registering `descA2` (id `a`) on a
state already holding `descA` (id `a`, same location) errors and leaves the
state unchanged. -/
theorem registry_unique_ids_invariant_witness :
    RegistryViewsInvariant (runOps
      [RegistryOp.regViews [descA, descB],
       RegistryOp.deregViews ["a"] ViewLocation.Explorer]) ∧
    registerViews stateA [descA2] = (stateA, [], some ⟨"a", "explorer"⟩) :=
  ⟨registry_unique_ids_invariant.1 _,
   registry_unique_ids_invariant.2 stateA descA2 (by decide)⟩

/-- C6: registering a provider under an id binds it (readable back via
`getTreeViewDataProvider`) and fires one `treeViewDataProviderRegistered`
event with the id; a second registration under the same id replaces the
binding — the unfinished guard in the source never rejects — and fires the
event again. -/
theorem registerTreeViewDataProvider_replaces (s : ViewsRegistryState)
    (id : String) (P₁ P₂ : ITreeViewDataProvider) :
    (registerTreeViewDataProvider s id P₁).2 =
      [RegistryEvent.treeViewDataProviderRegistered id] ∧
    getTreeViewDataProvider (registerTreeViewDataProvider s id P₁).1 id = some P₁ ∧
    (registerTreeViewDataProvider
      (registerTreeViewDataProvider s id P₁).1 id P₂).2 =
      [RegistryEvent.treeViewDataProviderRegistered id] ∧
    getTreeViewDataProvider
      (registerTreeViewDataProvider
        (registerTreeViewDataProvider s id P₁).1 id P₂).1 id = some P₂ :=
  ⟨rfl, mapGet_mapSet_self _ _ _, rfl, mapGet_mapSet_self _ _ _⟩

/-- C7: `deregisterTreeViewDataProviders` unconditionally clears every
provider binding — afterwards `getTreeViewDataProvider` returns `none` for
every id — and fires no event. -/
theorem deregisterTreeViewDataProviders_clears (s : ViewsRegistryState)
    (id : String) :
    (deregisterTreeViewDataProviders s).2 = [] ∧
    getTreeViewDataProvider (deregisterTreeViewDataProviders s).1 id = none :=
  ⟨rfl, rfl⟩

/-- C10: the two registry maps are mutually isolated — view registration and
deregistration never touch the provider bindings, the provider calls never
touch any location's descriptor sequence, and `deregisterViews` leaves every
location other than the given one unchanged. -/
theorem registry_frame_isolation (s : ViewsRegistryState) :
    (∀ ds, (registerViews s ds).1.treeViewDataPoviders = s.treeViewDataPoviders) ∧
    (∀ ids loc, (deregisterViews s ids loc).1.treeViewDataPoviders =
      s.treeViewDataPoviders) ∧
    (∀ id f, (registerTreeViewDataProvider s id f).1.views = s.views) ∧
    (deregisterTreeViewDataProviders s).1.views = s.views ∧
    ∀ ids loc loc₂, loc₂ ≠ loc →
      getViews (deregisterViews s ids loc).1 loc₂ = getViews s loc₂ := by
  refine ⟨?_, ?_, fun id f => rfl, rfl, ?_⟩
  · intro ds
    rw [registerViews_fst]
    exact registerViewsGo_treeViewDataPoviders ds s
  · intro ids loc
    unfold deregisterViews
    rcases mapGet s.views loc with _ | views
    · rfl
    · rfl
  · intro ids loc loc₂ hne
    unfold deregisterViews
    rcases mapGet s.views loc with _ | views
    · rfl
    · simp only
      by_cases hm : (views.filter (fun v => decide (v.id ∈ ids))).isEmpty = true
      · rw [if_pos hm]
      · rw [if_neg hm]
        unfold getViews
        rw [mapGet_mapSet_ne _ _ _ _ (fun h => hne h.symm)]

/-- Witness for C10: concrete frame checks on `stateA` — registering a debug
view leaves the provider map alone, and deregistering at the explorer
location leaves the debug location's sequence alone. -/
theorem registry_frame_isolation_witness :
    (registerViews stateA [descDbg]).1.treeViewDataPoviders =
      stateA.treeViewDataPoviders ∧
    getViews (deregisterViews stateA ["a"] ViewLocation.Explorer).1
      ViewLocation.Debug = getViews stateA ViewLocation.Debug :=
  ⟨(registry_frame_isolation stateA).1 [descDbg],
   (registry_frame_isolation stateA).2.2.2.2 ["a"] ViewLocation.Explorer
     ViewLocation.Debug (by decide)⟩

end Views
